import Mathlib

/-!
Verification of the agent-session orchestration core of fathom-vault.

The definitions below are a shallow embedding, in Lean, of the Python code in
src/services/crystallization.py, src/services/ping_scheduler.py,
src/services/persistent_session.py and src/routes/activation.py.
Side-effecting collaborators (the tmux adapter, the settings store, the Memento
sink, the wall clock, script execution) are passed in explicitly as values or
functions, and machine behaviour such as raising exceptions is modelled with
Option / Bool results, following the structure of the Python source line by
line.
-/

namespace FathomVault

/- ── services/crystallization.py ──────────────────────────────────────── -/

/-- Characters stripped by Python str.strip with no argument. -/
def py_space (c : Char) : Bool :=
  c = ' ' || c = '\t' || c = '\n' || c = '\r' || c = '\x0b' || c = '\x0c'

/-- Python str.strip: drop whitespace on both ends. -/
def strip_chars (l : List Char) : List Char :=
  ((l.dropWhile py_space).reverse.dropWhile py_space).reverse

/-- Does the pattern occur at the head of the text? (Python startswith.) -/
def starts_with : List Char → List Char → Bool
  | _, [] => true
  | [], _ :: _ => false
  | c :: cs, p :: ps => c = p && starts_with cs ps

/-- Python str.find: index of the first occurrence of a pattern, or none
(Python returns -1, modelled here as Option). -/
def find_sub : List Char → List Char → Option Nat
  | [], pat => if pat = [] then some 0 else none
  | c :: cs, pat =>
    if starts_with (c :: cs) pat then some 0
    else (find_sub cs pat).map (· + 1)

/-- The exact start delimiter used by the crystallization agent. -/
def crystal_start_marker : List Char := "---CRYSTAL-START---".data

/-- The exact end delimiter used by the crystallization agent. -/
def crystal_end_marker : List Char := "---CRYSTAL-END---".data

/-- Embedding of crystallization._extract_crystal: first occurrence of each
delimiter; none when either is missing, when the end is at or before the
start, or when the stripped text between them is empty. -/
def extract_crystal (text : List Char) : Option (List Char) :=
  match find_sub text crystal_start_marker, find_sub text crystal_end_marker with
  | some start_idx, some end_idx =>
    if end_idx ≤ start_idx then none
    else
      let body := (text.drop (start_idx + crystal_start_marker.length)).take
        (end_idx - (start_idx + crystal_start_marker.length))
      let c := strip_chars body
      if c = [] then none else some c
  | _, _ => none

inductive JobStatus
  | running
  | done
  | failed
  deriving DecidableEq, Repr

/-- One entry of a job event log: a progress marker or the terminal event. -/
inductive CEvent
  | progress (percent : Int) (stage : String)
  | done (status : JobStatus) (exit_code : Int) (error : Option String)
  deriving DecidableEq, Repr

/-- Outcome of the tail of crystallization._reader, after proc.wait():
terminal status, the terminal done event, and whether the Memento sink
write was attempted. -/
structure ReaderResult where
  status : JobStatus
  done_event : CEvent
  sink_called : Bool
  deriving DecidableEq, Repr

/-- Embedding of the post-exit part of crystallization._reader.
all_text is the accumulated transcript, returncode the exit code of the
spawned process, and sink_ok the ok flag of the Memento write response
(consulted only when the write is attempted). -/
def reader_finalize (all_text : List Char) (returncode : Int) (sink_ok : Bool) :
    ReaderResult :=
  let crystal := extract_crystal all_text
  let sink_called := crystal.isSome && returncode == 0
  let write_ok := sink_called && sink_ok
  let status := if returncode == 0 && write_ok then JobStatus.done else JobStatus.failed
  let error_detail : Option String :=
    if returncode != 0 then some ("Process exited with code " ++ toString returncode)
    else if crystal.isNone then some "No crystal text found between delimiters in agent output"
    else if !write_ok then some "Failed to write crystal to Memento"
    else none
  { status := status
    done_event := CEvent.done status returncode error_detail
    sink_called := sink_called }

/-- In-memory record of one crystallization job, as stored in _JOBS. -/
structure Job where
  status : JobStatus
  events : List CEvent
  deriving DecidableEq, Repr

/-- Embedding of crystallization.get_events: pure read of the job map. -/
def get_events (jobs : List (String × Job)) (job_id : String) (after : Nat) :
    Option (List CEvent) × Option JobStatus :=
  match jobs.lookup job_id with
  | none => (none, none)
  | some j => (some (j.events.drop after), some j.status)

/- ── services/ping_scheduler.py ───────────────────────────────────────── -/

/-- One script descriptor inside a routine's context sources. -/
structure ScriptSrc where
  label : String
  command : String
  enabled : Bool
  deriving DecidableEq, Repr

/-- One static text block inside a routine's context sources. -/
structure TextBlock where
  label : String
  content : String
  enabled : Bool
  deriving DecidableEq, Repr

/-- Context-source configuration of one routine. -/
structure ContextSources where
  time : Bool
  scripts : List ScriptSrc
  texts : List TextBlock
  deriving DecidableEq, Repr

/-- Default context sources, as in the Python dataclass field default. -/
def default_context_sources : ContextSources :=
  { time := true, scripts := [], texts := [] }

/-- Embedding of the RoutineState dataclass. Times are integers (seconds on
an abstract UTC axis). The timer field models the armed threading.Timer:
some d means a one-shot timer armed to fire after d seconds, none means no
armed timer. -/
structure RoutineState where
  id : String
  name : String := "Untitled"
  enabled : Bool := false
  interval_minutes : Int := 60
  workspace : String := "fathom"
  next_ping_at : Option Int := none
  last_ping_at : Option Int := none
  context_sources : ContextSources := default_context_sources
  timer : Option Int := none
  deriving DecidableEq, Repr

/-- Composite key workspace:id used by the routine map. -/
def routine_key (rs : RoutineState) : String :=
  rs.workspace ++ ":" ++ rs.id

/-- Embedding of PingScheduler._reschedule: set next ping one full interval
from now and arm a timer for interval_minutes * 60 seconds. -/
def reschedule (now : Int) (rs : RoutineState) : RoutineState :=
  { rs with
    next_ping_at := some (now + rs.interval_minutes * 60)
    timer := some (rs.interval_minutes * 60) }

/-- The untyped routine dict appearing in settings and request bodies;
absent keys are modelled as none. next_ping_at and last_ping_at carry
already-parsed timestamps. -/
structure RoutineDict where
  id : String
  name : Option String := none
  enabled : Option Bool := none
  interval_minutes : Option Int := none
  workspace : Option String := none
  context_sources : Option ContextSources := none
  next_ping_at : Option Int := none
  last_ping_at : Option Int := none
  deriving DecidableEq, Repr

/-- Common dict-to-state construction shared by configure_all and
add_routine: defaults applied, interval clamped up to 1. -/
def routine_of_dict (d : RoutineDict) : RoutineState :=
  { id := d.id
    name := d.name.getD "Untitled"
    enabled := d.enabled.getD false
    interval_minutes := max 1 (d.interval_minutes.getD 60)
    workspace := d.workspace.getD "fathom"
    context_sources := d.context_sources.getD default_context_sources }

/-- Per-routine part of PingScheduler.configure_all: restore last_ping_at,
and if enabled re-arm from the persisted next_ping_at when it is still in
the future, otherwise reschedule one full interval from now. -/
def load_routine (now : Int) (d : RoutineDict) : RoutineState :=
  let rs := { routine_of_dict d with last_ping_at := d.last_ping_at }
  if rs.enabled then
    match d.next_ping_at with
    | some target =>
      let remaining := target - now
      if 0 < remaining then { rs with next_ping_at := some target, timer := some remaining }
      else reschedule now rs
    | none => reschedule now rs
  else rs

/-- Insertion into the dict keyed by workspace:id (replace or append,
preserving insertion order as a Python dict does). -/
def insert_routine (sched : List RoutineState) (rs : RoutineState) : List RoutineState :=
  if sched.any (fun r => routine_key r = routine_key rs) then
    sched.map (fun r => if routine_key r = routine_key rs then rs else r)
  else sched ++ [rs]

/-- Embedding of PingScheduler.configure_all: drop all previous state
(cancelling timers) and load every routine of the list. -/
def configure_all (now : Int) (routines_list : List RoutineDict) : List RoutineState :=
  routines_list.foldl (fun acc d => insert_routine acc (load_routine now d)) []

/-- Embedding of PingScheduler.add_routine: build the state and arm a fresh
full-interval timer when enabled. -/
def add_routine (now : Int) (sched : List RoutineState) (d : RoutineDict) :
    List RoutineState :=
  let rs := routine_of_dict d
  let rs := if rs.enabled then reschedule now rs else rs
  insert_routine sched rs

/-- Embedding of PingScheduler._find: composite-key lookup when a workspace
is given, otherwise first routine with a matching id in insertion order. -/
def find_routine (sched : List RoutineState) (routine_id : String)
    (workspace : Option String) : Option RoutineState :=
  match workspace with
  | some ws => sched.find? (fun r => routine_key r = ws ++ ":" ++ routine_id)
  | none => sched.find? (fun r => r.id = routine_id)

/-- The keyword arguments accepted by configure_routine; none means the key
was absent from kwargs. -/
structure Kwargs where
  name : Option String := none
  interval_minutes : Option Int := none
  context_sources : Option ContextSources := none
  enabled : Option Bool := none
  deriving DecidableEq, Repr

/-- Embedding of the body of PingScheduler.configure_routine on the found
routine: field updates (interval clamped), unconditional timer teardown,
then fresh reschedule when enabled changed or an interval was supplied,
resumption of a still-future next_ping_at otherwise. -/
def configure_routine (now : Int) (kw : Kwargs) (rs : RoutineState) : RoutineState :=
  let rs := match kw.name with
    | some n => { rs with name := n }
    | none => rs
  let rs := match kw.interval_minutes with
    | some i => { rs with interval_minutes := max 1 i }
    | none => rs
  let rs := match kw.context_sources with
    | some c => { rs with context_sources := c }
    | none => rs
  let enabled_changed := match kw.enabled with
    | some e => e != rs.enabled
    | none => false
  let rs := match kw.enabled with
    | some e => { rs with enabled := e }
    | none => rs
  let rs := { rs with timer := none }
  if rs.enabled then
    if enabled_changed || kw.interval_minutes.isSome then reschedule now rs
    else
      match rs.next_ping_at with
      | some next =>
        let remaining := next - now
        if 0 < remaining then { rs with timer := some remaining }
        else reschedule now rs
      | none => reschedule now rs
  else { rs with next_ping_at := none }

/-- Map-level configure_routine: find, update, write back under the same
key; none when the routine was not found. -/
def configure_routine_map (now : Int) (sched : List RoutineState)
    (routine_id : String) (workspace : Option String) (kw : Kwargs) :
    List RoutineState × Option RoutineState :=
  match find_routine sched routine_id workspace with
  | none => (sched, none)
  | some rs =>
    let rs2 := configure_routine now kw rs
    (sched.map (fun r => if routine_key r = routine_key rs then rs2 else r), some rs2)

/-- Embedding of PingScheduler.fire_now: pure selection of the routine the
spawned thread will run; the map itself is not modified. Returns the
(id, workspace) pair handed to the thread, none when nothing matches. -/
def fire_now (sched : List RoutineState) (routine_id : Option String)
    (workspace : Option String) : Option (String × String) :=
  match routine_id with
  | none => sched.head?.map (fun r => (r.id, r.workspace))
  | some rid => (find_routine sched rid workspace).map (fun r => (r.id, r.workspace))

/-- Environment of one fire of PingScheduler._run: result of the injection
(ignored by the code), whether load_workspace_settings raised, whether the
saved routines list contains this routine's id, and whether
save_workspace_settings raised. -/
structure RunEnv where
  inject_ok : Bool
  load_ok : Bool
  found_in_saved : Bool
  save_ok : Bool
  deriving DecidableEq, Repr

/-- Embedding of PingScheduler._run on the found routine. via_timer is true
when the fire was entered through timer expiry (the one-shot timer is then
consumed), false for an out-of-band fire_now thread. last_ping_at is set
unconditionally; the reschedule happens inside the persistence try block,
only after a successful settings load and only when the routine id occurs
in the saved list; a raise from the load or the save is swallowed. -/
def run (now : Int) (via_timer : Bool) (env : RunEnv) (rs : RoutineState) :
    RoutineState :=
  let rs := if via_timer then { rs with timer := none } else rs
  let rs := { rs with last_ping_at := some now }
  if env.load_ok then
    if env.found_in_saved && rs.enabled then reschedule now rs else rs
  else rs

/-- Python str.strip lifted back to String. -/
def py_strip (s : String) : String :=
  ⟨strip_chars s.data⟩

/-- The condition under which a static text block contributes to the
prompt: enabled and with non-whitespace content (Python truthiness of the
stripped string). -/
def text_block_kept (tb : TextBlock) : Bool :=
  tb.enabled && py_strip tb.content ≠ ""

/-- One script section of PingScheduler._build_prompt. exec gives the
captured stdout of a command, or none when subprocess.run raised (timeout
or any other exception), in which case the output stays empty and the
section is the bare label. -/
def script_section (exec : String → Option String) (sc : ScriptSrc) : String :=
  let output := match exec sc.command with
    | some out => py_strip out
    | none => ""
  "[" ++ sc.label ++ "]" ++ (if output = "" then "" else "\n" ++ output)

/-- Embedding of PingScheduler._build_prompt. time_str is the formatted
current time, exec the script runner, override the contents of the
ping-prompt.md override file when it exists. The parts list is built by
the same sequence of appends as the Python code, then joined with blank
lines, dropping empty parts. -/
def build_prompt (time_str : String) (exec : String → Option String)
    (override : Option String) (src : ContextSources) : String :=
  let parts : List String := []
  let header_parts : List String := if src.time then ["Time: " ++ time_str] else []
  let parts := if header_parts.isEmpty then parts
    else parts ++ ["[Ping — " ++ String.intercalate " · " header_parts ++ "]"]
  let parts := src.scripts.foldl
    (fun acc sc => if sc.enabled then acc ++ [script_section exec sc] else acc) parts
  let parts := match override with
    | some content => parts ++ [py_strip content]
    | none => src.texts.foldl
      (fun acc (t : TextBlock) =>
        if text_block_kept t then acc ++ [py_strip t.content] else acc)
      parts
  String.intercalate "\n\n" (parts.filter (fun p => p ≠ ""))

/-- Modelled from the spec (sentence on fire-time prompt building): the
prompt is the concatenation, in fixed order, of (a) a time header if
enabled, (b) one block per enabled script source containing its captured
output, (c) either the override file's contents or the enabled static text
blocks. Stated independently of the imperative parts accumulation, to be
compared with build_prompt. -/
def prompt_spec (time_str : String) (exec : String → Option String)
    (override : Option String) (src : ContextSources) : String :=
  let header : List String :=
    if src.time then ["[Ping — Time: " ++ time_str ++ "]"] else []
  let script_blocks : List String :=
    (src.scripts.filter (fun sc => sc.enabled)).map (script_section exec)
  let tail_blocks : List String :=
    match override with
    | some content => [py_strip content]
    | none =>
      ((src.texts.filter text_block_kept).map (fun t => py_strip t.content))
  String.intercalate "\n\n"
    ((header ++ script_blocks ++ tail_blocks).filter (fun p => p ≠ ""))

/- ── services/persistent_session.py ───────────────────────────────────── -/

/-- Adapter world for one inject call: whether the tmux session exists at
entry, what ensure_running would return if invoked, and whether each of the
two send-keys subprocess calls raises. -/
structure TmuxEnv where
  running : Bool
  ensure_ok : Bool
  send_text_raises : Bool
  send_enter_raises : Bool
  deriving DecidableEq, Repr

/-- Externally visible adapter calls made by inject, in order. -/
inductive SessionAction
  | ensure_running
  | send_text (t : String)
  | send_enter
  deriving DecidableEq, Repr

/-- The try block of persistent_session.inject: send the literal text, then
the Enter keystroke; any raise is caught and returns false. -/
def inject_send (text : String) (env : TmuxEnv) (acts : List SessionAction) :
    Bool × List SessionAction :=
  let acts := acts ++ [SessionAction.send_text text]
  if env.send_text_raises then (false, acts)
  else
    let acts := acts ++ [SessionAction.send_enter]
    if env.send_enter_raises then (false, acts)
    else (true, acts)

/-- Embedding of persistent_session.inject: when the session is not
running, first attempt ensure_running and bail out with false before any
send when it fails; otherwise perform the two send calls. The returned
list records every adapter call attempted, in order. -/
def inject (text : String) (env : TmuxEnv) : Bool × List SessionAction :=
  if env.running then inject_send text env []
  else
    let acts := [SessionAction.ensure_running]
    if env.ensure_ok then inject_send text env acts
    else (false, acts)

/- ── routes/activation.py, crystal_stream ─────────────────────────────── -/

/-- One message yielded by the SSE generator. -/
inductive Msg
  | not_found
  | ev (e : CEvent)
  deriving DecidableEq, Repr

/-- Embedding of the generate() loop of activation.crystal_stream. snaps n
is the get_events view of the job map at the n-th poll (none when the job
id is not registered there). Fuel bounds the number of polls modelled; the
Bool is true when the loop returned (terminated) within that fuel, and the
list collects the yielded messages. The cursor advances past each emitted
event, and the terminal check happens after emitting the batch, exactly as
in the source. -/
def stream_run : Nat → (Nat → Option (List CEvent × JobStatus)) → Nat → Nat →
    List Msg × Bool
  | 0, _, _, _ => ([], false)
  | fuel + 1, snaps, i, cursor =>
    match snaps i with
    | none => ([Msg.not_found], true)
    | some (evs, st) =>
      let batch := evs.drop cursor
      let out := batch.map Msg.ev
      match st with
      | JobStatus.running =>
        let r := stream_run fuel snaps (i + 1) (cursor + batch.length)
        (out ++ r.1, r.2)
      | _ => (out, true)

/- ── Theorems ─────────────────────────────────────────────────────────── -/

/-- C1: a crystallization job's terminal status is done iff the process
exited 0 and a non-empty artifact was found between the exact delimiters and
the sink write returned ok; in every other case it is failed, and the
terminal done event carries the human-readable error naming the first failed
condition (non-zero exit, then missing delimiters, then sink rejection). -/
theorem crystallization_terminal_status :
    ∀ (text : List Char) (rc : Int) (sink_ok : Bool),
      ((reader_finalize text rc sink_ok).status = JobStatus.done ↔
        rc = 0 ∧ (extract_crystal text).isSome = true ∧ sink_ok = true) ∧
      ((reader_finalize text rc sink_ok).status = JobStatus.done ∨
        (reader_finalize text rc sink_ok).status = JobStatus.failed) ∧
      (rc ≠ 0 →
        (reader_finalize text rc sink_ok).done_event =
          CEvent.done JobStatus.failed rc
            (some ("Process exited with code " ++ toString rc))) ∧
      (rc = 0 → extract_crystal text = none →
        (reader_finalize text rc sink_ok).done_event =
          CEvent.done JobStatus.failed 0
            (some "No crystal text found between delimiters in agent output")) ∧
      (rc = 0 → (extract_crystal text).isSome = true → sink_ok = false →
        (reader_finalize text rc sink_ok).done_event =
          CEvent.done JobStatus.failed 0 (some "Failed to write crystal to Memento")) ∧
      ((reader_finalize text rc sink_ok).status = JobStatus.done →
        (reader_finalize text rc sink_ok).done_event = CEvent.done JobStatus.done rc none) := by
  intro text rc sink_ok
  by_cases hrc : rc = 0 <;> cases hex : extract_crystal text <;> cases sink_ok <;>
    simp [reader_finalize, hrc, hex]

/-- C1 witness: the spec's example transcripts, evaluated concretely. -/
theorem crystallization_terminal_status_witness :
    (reader_finalize "---CRYSTAL-START---\nHello\n---CRYSTAL-END---".data 0 true).status =
      JobStatus.done ∧
    (reader_finalize "---CRYSTAL-START---\nHello\n---CRYSTAL-END---".data 1 true).done_event =
      CEvent.done JobStatus.failed 1 (some "Process exited with code 1") ∧
    (reader_finalize "no markers, exit zero".data 0 true).done_event =
      CEvent.done JobStatus.failed 0
        (some "No crystal text found between delimiters in agent output") :=
  ⟨(crystallization_terminal_status _ 0 true).1.mpr ⟨rfl, by decide, rfl⟩,
   (crystallization_terminal_status _ 1 true).2.2.1 (by decide),
   (crystallization_terminal_status _ 0 true).2.2.2.1 rfl (by decide)⟩

/-- C6: get_events is a pure read returning the suffix of the event list
after the cursor plus the current status; an unregistered job id yields the
sentinel (none, none), and a cursor equal to the event-list length yields
the empty list with the current status. -/
theorem get_events_contract :
    (∀ (jobs : List (String × Job)) (job_id : String) (after : Nat),
      jobs.lookup job_id = none → get_events jobs job_id after = (none, none)) ∧
    (∀ (jobs : List (String × Job)) (job_id : String) (after : Nat) (j : Job),
      jobs.lookup job_id = some j →
      get_events jobs job_id after = (some (j.events.drop after), some j.status)) ∧
    (∀ (jobs : List (String × Job)) (job_id : String) (j : Job),
      jobs.lookup job_id = some j →
      get_events jobs job_id j.events.length = (some [], some j.status)) := by
  refine ⟨?_, ?_, ?_⟩ <;> intro jobs job_id
  · intro after h
    simp [get_events, h]
  · intro after j h
    simp [get_events, h]
  · intro j h
    simp [get_events, h]

/-- C6 witness: a one-job map, read at an unknown id, at cursor 0 and at
the event-list length. -/
theorem get_events_contract_witness :
    get_events [("job-a", ⟨JobStatus.running, [CEvent.progress 5 "read"]⟩)] "job-b" 0 =
      (none, none) ∧
    get_events [("job-a", ⟨JobStatus.running, [CEvent.progress 5 "read"]⟩)] "job-a" 1 =
      (some [], some JobStatus.running) :=
  ⟨get_events_contract.1 _ "job-b" 0 (by decide),
   get_events_contract.2.2 _ "job-a" ⟨JobStatus.running, [CEvent.progress 5 "read"]⟩ (by decide)⟩

/-- C10: when both delimiters occur but the first end-delimiter occurrence
is at or before the first start-delimiter occurrence, or the stripped text
between them is empty, extraction yields no artifact, and a zero-exit job
still fails with the missing-delimiters reason, with no sink write
attempted. -/
theorem extract_crystal_degenerate :
    ∀ (text : List Char) (s e : Nat) (sink_ok : Bool),
      find_sub text crystal_start_marker = some s →
      find_sub text crystal_end_marker = some e →
      (e ≤ s ∨
        strip_chars ((text.drop (s + crystal_start_marker.length)).take
          (e - (s + crystal_start_marker.length))) = []) →
      extract_crystal text = none ∧
      (reader_finalize text 0 sink_ok).status = JobStatus.failed ∧
      (reader_finalize text 0 sink_ok).done_event =
        CEvent.done JobStatus.failed 0
          (some "No crystal text found between delimiters in agent output") ∧
      (reader_finalize text 0 sink_ok).sink_called = false := by
  intro text s e sink_ok hs he hdeg
  have hnone : extract_crystal text = none := by
    unfold extract_crystal
    rw [hs, he]
    rcases hdeg with hle | hws
    · simp [hle]
    · by_cases hle : e ≤ s
      · simp [hle]
      · simp [hle, hws]
  refine ⟨hnone, ?_, ?_, ?_⟩ <;> simp [reader_finalize, hnone]

/-- C10 witness: an end delimiter occurring before the start delimiter, and
a whitespace-only body between correctly ordered delimiters. -/
theorem extract_crystal_degenerate_witness :
    (extract_crystal "---CRYSTAL-END------CRYSTAL-START---text".data = none ∧
      (reader_finalize "---CRYSTAL-END------CRYSTAL-START---text".data 0 true).status =
        JobStatus.failed ∧
      (reader_finalize "---CRYSTAL-END------CRYSTAL-START---text".data 0 true).done_event =
        CEvent.done JobStatus.failed 0
          (some "No crystal text found between delimiters in agent output") ∧
      (reader_finalize "---CRYSTAL-END------CRYSTAL-START---text".data 0 true).sink_called =
        false) ∧
    extract_crystal "---CRYSTAL-START--- \n ---CRYSTAL-END---".data = none :=
  ⟨extract_crystal_degenerate _ 17 0 true (by decide) (by decide) (Or.inl (by decide)),
   (extract_crystal_degenerate "---CRYSTAL-START--- \n ---CRYSTAL-END---".data 0 22 true
      (by decide) (by decide) (Or.inr (by decide))).1⟩

/-- Every routine resident in the map has an interval of at least one
minute. -/
def interval_invariant (sched : List RoutineState) : Prop :=
  ∀ rs ∈ sched, 1 ≤ rs.interval_minutes

theorem reschedule_interval (now : Int) (rs : RoutineState) :
    (reschedule now rs).interval_minutes = rs.interval_minutes := rfl

theorem load_routine_interval (now : Int) (d : RoutineDict) :
    (load_routine now d).interval_minutes = max 1 (d.interval_minutes.getD 60) := by
  unfold load_routine routine_of_dict
  dsimp only
  repeat' split
  all_goals rfl

theorem configure_routine_interval (now : Int) (kw : Kwargs) (rs : RoutineState) :
    (configure_routine now kw rs).interval_minutes =
      match kw.interval_minutes with
      | some i => max 1 i
      | none => rs.interval_minutes := by
  unfold configure_routine reschedule
  cases kw.name <;> cases kw.interval_minutes <;> cases kw.context_sources <;>
    cases kw.enabled <;> dsimp only <;> repeat' split
  all_goals rfl

theorem interval_invariant_insert {sched : List RoutineState} {rs : RoutineState}
    (h : interval_invariant sched) (hrs : 1 ≤ rs.interval_minutes) :
    interval_invariant (insert_routine sched rs) := by
  intro r hr
  unfold insert_routine at hr
  split at hr
  · rcases List.mem_map.1 hr with ⟨x, hx, rfl⟩
    by_cases hk : routine_key x = routine_key rs <;> simp [hk]
    · exact hrs
    · exact h x hx
  · rcases List.mem_append.1 hr with h1 | h2
    · exact h r h1
    · rw [List.mem_singleton.1 h2]
      exact hrs

theorem interval_invariant_configure_all_foldl (now : Int) :
    ∀ (l : List RoutineDict) (acc : List RoutineState), interval_invariant acc →
      interval_invariant
        (l.foldl (fun acc d => insert_routine acc (load_routine now d)) acc) := by
  intro l
  induction l with
  | nil => intro acc h; exact h
  | cons d ds ih =>
    intro acc h
    exact ih _ (interval_invariant_insert h (by rw [load_routine_interval]; exact le_max_left _ _))

/-- C9: invariant kept by bulk load, add and configure: every routine in
the map has interval_minutes at least 1; a supplied interval below 1 is
clamped up to 1 rather than rejected. -/
theorem interval_invariant_kept :
    (∀ (d : RoutineDict), 1 ≤ (routine_of_dict d).interval_minutes ∧
      (∀ i, d.interval_minutes = some i → i < 1 →
        (routine_of_dict d).interval_minutes = 1)) ∧
    (∀ (now : Int) (routines_list : List RoutineDict),
      interval_invariant (configure_all now routines_list)) ∧
    (∀ (now : Int) (sched : List RoutineState) (d : RoutineDict),
      interval_invariant sched → interval_invariant (add_routine now sched d)) ∧
    (∀ (now : Int) (sched : List RoutineState) (routine_id : String)
      (workspace : Option String) (kw : Kwargs), interval_invariant sched →
      interval_invariant (configure_routine_map now sched routine_id workspace kw).1) := by
  refine ⟨?_, ?_, ?_, ?_⟩
  · intro d
    constructor
    · exact le_max_left _ _
    · intro i hi hlt
      simp only [routine_of_dict, hi, Option.getD_some]
      omega
  · intro now routines_list
    exact interval_invariant_configure_all_foldl now routines_list [] (by intro r hr; cases hr)
  · intro now sched d h
    unfold add_routine
    dsimp only
    split
    · exact interval_invariant_insert h (by rw [reschedule_interval]; exact le_max_left _ _)
    · exact interval_invariant_insert h (le_max_left _ _)
  · intro now sched routine_id workspace kw h
    unfold configure_routine_map
    cases hf : find_routine sched routine_id workspace with
    | none => exact h
    | some rs =>
      have hrs : rs ∈ sched := by
        unfold find_routine at hf
        cases workspace <;> exact List.mem_of_find?_eq_some hf
      intro r hr
      rcases List.mem_map.1 hr with ⟨x, hx, rfl⟩
      by_cases hk : routine_key x = routine_key rs <;> simp [hk]
      · rw [configure_routine_interval]
        cases hi : kw.interval_minutes with
        | none => exact h rs hrs
        | some i => exact le_max_left _ _
      · exact h x hx

/-- C9 witness: a concrete map built with an interval of -3, clamped to 1,
and preserved across add and configure. -/
theorem interval_invariant_kept_witness :
    (routine_of_dict { id := "r1", interval_minutes := some (-3) }).interval_minutes = 1 ∧
    interval_invariant (configure_all 0 [{ id := "r1", interval_minutes := some 0 }]) ∧
    interval_invariant
      (configure_routine_map 0 [routine_of_dict { id := "r1" }] "r1" none
        { interval_minutes := some (-7) }).1 :=
  ⟨(interval_invariant_kept.1 { id := "r1", interval_minutes := some (-3) }).2 (-3) rfl
      (by decide),
   interval_invariant_kept.2.1 0 _,
   interval_invariant_kept.2.2.2 0 _ "r1" none { interval_minutes := some (-7) }
     (by intro r hr; rw [List.mem_singleton.1 hr]; decide)⟩

/-- C4: a configure call that changes enabled or supplies an interval tears
the old timer down and, when the routine ends up enabled, re-arms a fresh
full-interval countdown with next_ping_at exactly now plus the interval;
disabling and immediately re-enabling always yields a full-interval
countdown. -/
theorem configure_fresh_countdown :
    (∀ (now : Int) (kw : Kwargs) (rs : RoutineState),
      ((∃ e, kw.enabled = some e ∧ e ≠ rs.enabled) ∨ kw.interval_minutes.isSome = true) →
      ((configure_routine now kw rs).enabled = true →
        (configure_routine now kw rs).next_ping_at =
          some (now + (configure_routine now kw rs).interval_minutes * 60) ∧
        (configure_routine now kw rs).timer =
          some ((configure_routine now kw rs).interval_minutes * 60)) ∧
      ((configure_routine now kw rs).enabled = false →
        (configure_routine now kw rs).timer = none ∧
        (configure_routine now kw rs).next_ping_at = none)) ∧
    (∀ (now1 now2 : Int) (rs : RoutineState),
      (configure_routine now2 { enabled := some true }
          (configure_routine now1 { enabled := some false } rs)).enabled = true ∧
      (configure_routine now2 { enabled := some true }
          (configure_routine now1 { enabled := some false } rs)).next_ping_at =
        some (now2 +
          (configure_routine now2 { enabled := some true }
            (configure_routine now1 { enabled := some false } rs)).interval_minutes * 60) ∧
      (configure_routine now2 { enabled := some true }
          (configure_routine now1 { enabled := some false } rs)).timer =
        some ((configure_routine now2 { enabled := some true }
          (configure_routine now1 { enabled := some false } rs)).interval_minutes * 60)) := by
  constructor
  · intro now kw rs hchange
    obtain ⟨rid, rname, ren, rint, rws, rnext, rlast, rcs, rtimer⟩ := rs
    unfold configure_routine reschedule
    cases hkN : kw.name <;> cases hkI : kw.interval_minutes <;>
      cases hkC : kw.context_sources <;> cases hkE : kw.enabled <;>
      simp only [hkN, hkI, hkC, hkE] at hchange ⊢ <;>
      repeat' split
    all_goals simp_all
  · intro now1 now2 rs
    obtain ⟨rid, rname, ren, rint, rws, rnext, rlast, rcs, rtimer⟩ := rs
    cases ren <;> simp [configure_routine, reschedule]

/-- C4 witness: enabling a disabled routine at time 100 with a 5-minute
interval arms a fresh 300-second countdown due at 400. -/
theorem configure_fresh_countdown_witness :
    (configure_routine 100 { enabled := some true }
      { id := "r1", interval_minutes := 5 }).next_ping_at = some 400 ∧
    (configure_routine 100 { enabled := some true }
      { id := "r1", interval_minutes := 5 }).timer = some 300 := by
  have h := (configure_fresh_countdown.1 100 { enabled := some true }
    { id := "r1", interval_minutes := 5 }
    (Or.inl ⟨true, rfl, by decide⟩)).1 (by decide)
  exact ⟨by rw [h.1]; decide, by rw [h.2]; decide⟩

/-- An enabled routine with an armed timer, used to exercise the fire
bookkeeping at concrete inputs. -/
def rs_fire_demo : RoutineState :=
  { id := "r1", enabled := true, interval_minutes := 5,
    next_ping_at := some 12345, timer := some 777 }

/-- C2 counterexample: an enabled routine fires via its timer while
load_workspace_settings raises; the failure is swallowed, but the routine
is left with no armed timer and its next_ping_at is not moved one interval
forward, contradicting the claim that after a persistence failure the
routine still has an armed timer. -/
theorem fire_persistence_failure_counterexample :
    rs_fire_demo.enabled = true ∧
    (run 1000 true
      { inject_ok := true, load_ok := false, found_in_saved := true, save_ok := true }
      rs_fire_demo).timer = none ∧
    (run 1000 true
      { inject_ok := true, load_ok := false, found_in_saved := true, save_ok := true }
      rs_fire_demo).next_ping_at = some 12345 := by
  decide

/-- C2 amended: every timer fire updates last_ping_at regardless of the
injection result; when the settings load succeeds and the saved list
contains the routine, an enabled routine is re-armed exactly one interval
later even if the subsequent save raises (that failure is swallowed); but
when the settings load raises, the swallowed failure skips re-arming and
the routine is left with no armed timer. -/
theorem fire_reschedule_amended :
    ∀ (now : Int) (env : RunEnv) (rs : RoutineState), rs.enabled = true →
      ((run now true env rs).last_ping_at = some now) ∧
      (env.load_ok = true → env.found_in_saved = true →
        (run now true env rs).timer = some (rs.interval_minutes * 60) ∧
        (run now true env rs).next_ping_at = some (now + rs.interval_minutes * 60)) ∧
      (env.load_ok = false →
        (run now true env rs).timer = none ∧
        (run now true env rs).next_ping_at = rs.next_ping_at) := by
  intro now env rs he
  obtain ⟨einj, eload, efound, esave⟩ := env
  cases eload <;> cases efound <;> simp [run, reschedule, he]

/-- C2 amended witness: a fire whose injection failed and whose settings
save raised still updates last_ping_at and re-arms 120 seconds ahead. -/
theorem fire_reschedule_amended_witness :
    (run 50 true
      { inject_ok := false, load_ok := true, found_in_saved := true, save_ok := false }
      { id := "w2", enabled := true, interval_minutes := 2 }).last_ping_at = some 50 ∧
    (run 50 true
      { inject_ok := false, load_ok := true, found_in_saved := true, save_ok := false }
      { id := "w2", enabled := true, interval_minutes := 2 }).timer = some 120 ∧
    (run 50 true
      { inject_ok := false, load_ok := true, found_in_saved := true, save_ok := false }
      { id := "w2", enabled := true, interval_minutes := 2 }).next_ping_at = some 170 := by
  have h := fire_reschedule_amended 50
    { inject_ok := false, load_ok := true, found_in_saved := true, save_ok := false }
    { id := "w2", enabled := true, interval_minutes := 2 } rfl
  refine ⟨h.1, ?_, ?_⟩
  · rw [(h.2.1 rfl rfl).1]; decide
  · rw [(h.2.1 rfl rfl).2]; decide

/-- C3 counterexample: an out-of-band fire of an enabled routine with
healthy persistence replaces both the armed timer and next_ping_at, so the
existing timer is not left undisturbed. -/
theorem out_of_band_fire_counterexample :
    rs_fire_demo.enabled = true ∧
    fire_now [rs_fire_demo] (some "r1") (some "fathom") = some ("r1", "fathom") ∧
    (run 0 false
      { inject_ok := true, load_ok := true, found_in_saved := true, save_ok := true }
      rs_fire_demo).next_ping_at ≠ rs_fire_demo.next_ping_at ∧
    (run 0 false
      { inject_ok := true, load_ok := true, found_in_saved := true, save_ok := true }
      rs_fire_demo).timer ≠ rs_fire_demo.timer := by
  decide

/-- C3 amended: fire_now only selects an existing routine and hands it to a
separate thread; the fire itself leaves the timer and next_ping_at of a
disabled routine (or of any routine whose persistence step skips
re-arming) untouched, but for an enabled routine with healthy persistence
it re-arms the timer one full interval from the fire time, replacing
next_ping_at. -/
theorem fire_now_amended :
    (∀ (sched : List RoutineState) (routine_id workspace : Option String)
      (p : String × String), fire_now sched routine_id workspace = some p →
      ∃ rs ∈ sched, p = (rs.id, rs.workspace)) ∧
    (∀ (now : Int) (env : RunEnv) (rs : RoutineState),
      (rs.enabled = false →
        (run now false env rs).timer = rs.timer ∧
        (run now false env rs).next_ping_at = rs.next_ping_at) ∧
      ((env.load_ok = false ∨ env.found_in_saved = false) →
        (run now false env rs).timer = rs.timer ∧
        (run now false env rs).next_ping_at = rs.next_ping_at) ∧
      (rs.enabled = true → env.load_ok = true → env.found_in_saved = true →
        (run now false env rs).next_ping_at = some (now + rs.interval_minutes * 60) ∧
        (run now false env rs).timer = some (rs.interval_minutes * 60)) ∧
      (run now false env rs).last_ping_at = some now) := by
  constructor
  · intro sched routine_id workspace p hp
    cases routine_id with
    | none =>
      cases hh : sched.head? with
      | none => rw [fire_now, hh] at hp; cases hp
      | some rs =>
        rw [fire_now, hh] at hp
        exact ⟨rs, List.mem_of_mem_head? hh, (Option.some_inj.1 hp).symm⟩
    | some rid =>
      cases hf : find_routine sched rid workspace with
      | none => rw [fire_now, hf] at hp; cases hp
      | some rs =>
        rw [fire_now, hf] at hp
        have hm : rs ∈ sched := by
          unfold find_routine at hf
          cases workspace <;> exact List.mem_of_find?_eq_some hf
        exact ⟨rs, hm, (Option.some_inj.1 hp).symm⟩
  · intro now env rs
    obtain ⟨einj, eload, efound, esave⟩ := env
    cases eload <;> cases efound <;> cases hen : rs.enabled <;>
      simp [run, reschedule, hen]

/-- C3 amended witness: a disabled routine keeps its (absent) timer and
next_ping_at across an out-of-band fire; an enabled one is re-armed 300
seconds ahead. -/
theorem fire_now_amended_witness :
    (run 7 false
      { inject_ok := true, load_ok := true, found_in_saved := true, save_ok := true }
      { id := "w3", enabled := false, next_ping_at := some 42 }).next_ping_at = some 42 ∧
    (run 7 false
      { inject_ok := true, load_ok := true, found_in_saved := true, save_ok := true }
      { id := "w3", enabled := true, interval_minutes := 5 }).next_ping_at = some 307 := by
  have h1 := ((fire_now_amended.2 7
    { inject_ok := true, load_ok := true, found_in_saved := true, save_ok := true }
    { id := "w3", enabled := false, next_ping_at := some 42 }).1 rfl).2
  have h2 := ((fire_now_amended.2 7
    { inject_ok := true, load_ok := true, found_in_saved := true, save_ok := true }
    { id := "w3", enabled := true, interval_minutes := 5 }).2.2.1 rfl rfl rfl).1
  refine ⟨by rw [h1], by rw [h2]; decide⟩

/-- C5: on a workspace whose session is not running, inject first attempts
ensure_running; when that fails it returns false having attempted no send
call; and inject returns false exactly when the session could not be
started or one of the send calls raised. -/
theorem inject_contract :
    ∀ (text : String) (env : TmuxEnv),
      (env.running = false →
        ((inject text env).2.head? = some SessionAction.ensure_running) ∧
        (env.ensure_ok = false →
          inject text env = (false, [SessionAction.ensure_running]))) ∧
      ((inject text env).1 = false ↔
        (env.running = false ∧ env.ensure_ok = false) ∨
        env.send_text_raises = true ∨ env.send_enter_raises = true) := by
  intro text env
  obtain ⟨run, ens, st, se⟩ := env
  cases run <;> cases ens <;> cases st <;> cases se <;>
    simp [inject, inject_send]

/-- C5 witness: a stopped session whose bring-up fails yields false with
only the ensure_running attempt; a running session with healthy sends
yields true; a raising send yields false. -/
theorem inject_contract_witness :
    inject "hi" ⟨false, false, false, false⟩ = (false, [SessionAction.ensure_running]) ∧
    (inject "hi" ⟨true, true, false, false⟩).1 = true ∧
    (inject "hi" ⟨true, true, true, false⟩).1 = false :=
  ⟨((inject_contract "hi" ⟨false, false, false, false⟩).1 rfl).2 rfl,
   by
    have h := (inject_contract "hi" ⟨true, true, false, false⟩).2
    cases hv : (inject "hi" ⟨true, true, false, false⟩).1
    · simp [hv] at h
    · rfl,
   (inject_contract "hi" ⟨true, true, true, false⟩).2.mpr (Or.inr (Or.inl rfl))⟩

theorem foldl_push_filter_map {α : Type} (p : α → Bool) (f : α → String) :
    ∀ (l : List α) (init : List String),
      l.foldl (fun acc x => if p x then acc ++ [f x] else acc) init =
        init ++ (l.filter p).map f := by
  intro l
  induction l with
  | nil => intro init; simp
  | cons x xs ih =>
    intro init
    by_cases hx : p x <;> simp [List.filter_cons, hx, ih]

theorem header_string_eq (t : String) :
    "[Ping — " ++ String.intercalate " · " ["Time: " ++ t] ++ "]" =
      "[Ping — Time: " ++ t ++ "]" := by
  have h1 : String.intercalate " · " ["Time: " ++ t] = "Time: " ++ t := rfl
  rw [h1, ← String.append_assoc]
  have h2 : "[Ping — " ++ "Time: " = "[Ping — Time: " := by decide
  rw [h2]

/-- C7: the fired prompt is exactly the concatenation, in fixed order, of
the optional time header, one block per enabled script source (a raising or
timed-out script contributing the bare label), and either the override file
contents or the enabled static text blocks; and a failing script yields an
empty-bodied block rather than aborting the build. -/
theorem build_prompt_structure :
    (∀ (time_str : String) (exec : String → Option String) (override : Option String)
        (src : ContextSources),
      build_prompt time_str exec override src = prompt_spec time_str exec override src) ∧
    (∀ (exec : String → Option String) (sc : ScriptSrc), exec sc.command = none →
      script_section exec sc = "[" ++ sc.label ++ "]") := by
  constructor
  · intro t exec ov src
    unfold build_prompt prompt_spec
    cases hts : src.time <;> cases ov <;>
      simp [foldl_push_filter_map, header_string_eq, List.append_assoc]
  · intro exec sc h
    simp [script_section, h]

/-- C7 witness: one enabled raising script between a time header and a
static text block; the prompt keeps all three sections in order with an
empty-bodied script block. -/
theorem build_prompt_structure_witness :
    build_prompt "Monday" (fun _ => none) none
      { time := true,
        scripts := [{ label := "Weather", command := "curl wttr.in", enabled := true }],
        texts := [{ label := "Body", content := "Reflect.", enabled := true }] } =
      prompt_spec "Monday" (fun _ => none) none
        { time := true,
          scripts := [{ label := "Weather", command := "curl wttr.in", enabled := true }],
          texts := [{ label := "Body", content := "Reflect.", enabled := true }] } ∧
    script_section (fun _ => none)
      { label := "Weather", command := "curl wttr.in", enabled := true } = "[Weather]" :=
  ⟨build_prompt_structure.1 "Monday" (fun _ => none) none _,
   build_prompt_structure.2 (fun _ => none) _ rfl⟩

theorem events_chain (E : Nat → List CEvent)
    (hmono : ∀ n, ∃ t, E (n + 1) = E n ++ t) :
    ∀ j m, j ≤ m → ∃ t, E m = E j ++ t := by
  intro j m hjm
  induction m with
  | zero =>
    have : j = 0 := Nat.le_zero.1 hjm
    exact ⟨[], by simp [this]⟩
  | succ m ih =>
    rcases Nat.lt_or_ge j (m + 1) with hlt | hge
    · rcases ih (Nat.lt_succ_iff.1 hlt) with ⟨t1, ht1⟩
      rcases hmono m with ⟨t2, ht2⟩
      exact ⟨t1 ++ t2, by rw [ht2, ht1, List.append_assoc]⟩
    · have : j = m + 1 := Nat.le_antisymm hjm hge
      exact ⟨[], by simp [this]⟩

theorem stream_run_terminal (E : Nat → List CEvent) (S : Nat → JobStatus) (k : Nat)
    (hmono : ∀ n, ∃ t, E (n + 1) = E n ++ t)
    (hrun : ∀ n, n < k → S n = JobStatus.running)
    (hterm : S k ≠ JobStatus.running) :
    ∀ (fuel j c : Nat), j ≤ k → k - j < fuel → c ≤ (E j).length →
      stream_run fuel (fun n => some (E n, S n)) j c =
        (((E k).drop c).map Msg.ev, true) := by
  intro fuel
  induction fuel with
  | zero => intro j c _ h _; exact absurd h (Nat.not_lt_zero _)
  | succ fuel ih =>
    intro j c hjk hfuel hc
    rcases Nat.lt_or_ge j k with hlt | hge
    · have hSj : S j = JobStatus.running := hrun j hlt
      have hlen : c + ((E j).drop c).length = (E j).length := by
        rw [List.length_drop]
        omega
      have hnext : (E j).length ≤ (E (j + 1)).length := by
        rcases hmono j with ⟨t, ht⟩
        rw [ht, List.length_append]
        omega
      have hrec := ih (j + 1) ((E j).length) hlt (by omega) hnext
      rcases events_chain E hmono j k (Nat.le_of_lt hlt) with ⟨t, ht⟩
      have hdrop1 : (E k).drop c = (E j).drop c ++ t := by
        rw [ht, List.drop_append_of_le_length hc]
      have hdrop2 : (E k).drop (E j).length = t := by
        rw [ht, List.drop_left]
      rw [stream_run, hSj]
      simp only [hlen, hrec, hdrop1, hdrop2, List.map_append]
    · have hjk2 : j = k := Nat.le_antisymm hjk hge
      subst hjk2
      rw [stream_run]
      cases hSk : S j with
      | running => exact absurd hSk hterm
      | done => simp
      | failed => simp

/-- C8: the SSE generator emits a job-not-found message and stops when the
id is not registered; while status is running it never terminates on an
empty batch but polls again after emitting whatever arrived; it terminates
exactly on a poll whose status is done or failed; and for a job whose
event list only grows and whose status turns terminal at poll k, a run
with enough fuel emits every appended event exactly once, in order, and
terminates. -/
theorem crystal_stream_contract :
    (∀ (snaps : Nat → Option (List CEvent × JobStatus)) (fuel i cursor : Nat),
      snaps i = none →
      stream_run (fuel + 1) snaps i cursor = ([Msg.not_found], true)) ∧
    (∀ (snaps : Nat → Option (List CEvent × JobStatus)) (fuel i cursor : Nat)
      (evs : List CEvent),
      snaps i = some (evs, JobStatus.running) →
      stream_run (fuel + 1) snaps i cursor =
        ((evs.drop cursor).map Msg.ev ++
          (stream_run fuel snaps (i + 1) (cursor + (evs.drop cursor).length)).1,
         (stream_run fuel snaps (i + 1) (cursor + (evs.drop cursor).length)).2)) ∧
    (∀ (snaps : Nat → Option (List CEvent × JobStatus)) (fuel i cursor : Nat)
      (evs : List CEvent) (st : JobStatus),
      snaps i = some (evs, st) → st ≠ JobStatus.running →
      stream_run (fuel + 1) snaps i cursor = ((evs.drop cursor).map Msg.ev, true)) ∧
    (∀ (E : Nat → List CEvent) (S : Nat → JobStatus) (k fuel : Nat),
      (∀ n, ∃ t, E (n + 1) = E n ++ t) →
      (∀ n, n < k → S n = JobStatus.running) →
      (S k = JobStatus.done ∨ S k = JobStatus.failed) →
      k < fuel →
      stream_run fuel (fun n => some (E n, S n)) 0 0 = ((E k).map Msg.ev, true)) := by
  refine ⟨?_, ?_, ?_, ?_⟩
  · intro snaps fuel i cursor h
    rw [stream_run, h]
  · intro snaps fuel i cursor evs h
    rw [stream_run, h]
  · intro snaps fuel i cursor evs st h hst
    rw [stream_run, h]
    cases st with
    | running => exact absurd rfl hst
    | done => rfl
    | failed => rfl
  · intro E S k fuel hmono hrun hterm hfuel
    have hterm2 : S k ≠ JobStatus.running := by
      rcases hterm with h | h <;> rw [h] <;> intro hx <;> cases hx
    have := stream_run_terminal E S k hmono hrun hterm2 fuel 0 0 (Nat.zero_le _)
      (by omega) (Nat.zero_le _)
    simpa using this

/-- C8 events of the witness job after the first poll. -/
def wE : Nat → List CEvent
  | 0 => []
  | _ + 1 => [CEvent.progress 50 "Synthesizing"]

/-- C8 status of the witness job: running at the first poll, done after. -/
def wS : Nat → JobStatus
  | 0 => JobStatus.running
  | _ + 1 => JobStatus.done

/-- C8 witness: a job registered with one event appearing after an empty
running poll is streamed to completion emitting that event once; an
unregistered id yields only the not-found message. -/
theorem crystal_stream_contract_witness :
    stream_run 2 (fun n => some (wE n, wS n)) 0 0 =
      ([Msg.ev (CEvent.progress 50 "Synthesizing")], true) ∧
    stream_run 1 (fun _ => none) 0 0 = ([Msg.not_found], true) := by
  constructor
  · have h := crystal_stream_contract.2.2.2 wE wS 1 2
      (fun n => by cases n <;> exact ⟨_, rfl⟩)
      (fun n hn => by
        cases n with
        | zero => rfl
        | succ m => exact absurd hn (by omega))
      (Or.inl rfl) (by omega)
    rw [h]
    rfl
  · exact crystal_stream_contract.1 (fun _ => none) 0 0 0 rfl

end FathomVault
